import Mathlib

/-!
A verification development for the NBA lineup-prediction pipeline
(`data_processor.py`, `feature_engineering.py`, `predictor.py`, `main.py`).

Python floats are embedded as `ℚ` (every claim checked here is an exact
arithmetic identity, never a rounding property).  Library randomness is
embedded by explicit parameters:

* `syn : String → ℚ` is the value of `random.random()` right after
  `random.seed(md5(joined sorted names) % 1000)`, hence a deterministic
  function of the joined sorted name string;
* `noise` parameters stand for the `np.random.normal(0, 0.05)` draw of a
  single call, one fresh value per call in source order;
* `pick : Finset String → String` is `random.choice` over the current
  candidate pool (theorems quantify over every `pick` that returns a
  member of a nonempty pool);
* `md5 : String → Nat` and `rng : Nat → ℚ` stand for the MD5 digest as an
  integer, and for the first `random.random()` after seeding with `n`.

`dict.get(k, d)` becomes `(m k).getD d` with `m : String → Option ℚ`.
-/

namespace NBA

abbrev Name := String

/-- One row of the raw matchup dataframe: `game`, `home_team`, `away_team`,
`season`, `starting_min`, and the possibly-null player cells
`home_0..home_4`, `away_0..away_4`. -/
structure Row where
  game : String
  home_team : String
  away_team : String
  season : Int
  starting_min : Int
  home : Fin 5 → Option Name
  away : Fin 5 → Option Name

/-- One row of the training dataframe produced by `prepare_training_data`. -/
structure TrainExample where
  game_id : String
  home_team : String
  away_team : String
  season : Int
  starting_min : Int
  player_1 : Name
  player_2 : Name
  player_3 : Name
  player_4 : Name
  fifth_player : Name
  effectiveness : ℚ
  away_players : List Name
  deriving DecidableEq, Repr

/-- `np.mean` of a list of rationals (`sum / len`). -/
def pyMean (l : List ℚ) : ℚ := l.sum / l.length

/-- `np.mean([player_ratings.get(p, 0.5) for p in players])`. -/
def ratingsAvg (pr : Name → Option ℚ) (players : List Name) : ℚ :=
  pyMean (players.map fun p => (pr p).getD 0.5)

/-- `"".join(sorted(players))`: the seed string for the synergy factor. -/
def joinedSorted (players : List Name) : String :=
  String.join (players.mergeSort fun a b => decide (a ≤ b))

/-- `calculate_lineup_effectiveness` from `data_processor.py` (lines 110-139),
with the library randomness made explicit: `syn` is the seeded
`random.random()` draw of the synergy factor and `noise` the
`np.random.normal(0, 0.05)` draw of this call. -/
def calculate_lineup_effectiveness (pr tr : Name → Option ℚ) (syn : String → ℚ)
    (players : List Name) (team opponent : String) (opponent_players : List Name)
    (noise : ℚ) : ℚ :=
  let player_rating_avg := ratingsAvg pr players
  let team_factor := (tr team).getD 0.6
  let opponent_factor := 1 - (tr opponent).getD 0.6
  let synergy_factor := 0.8 + 0.4 * syn (joinedSorted players)
  let matchup_factor :=
    if opponent_players.isEmpty then 1
    else 1 + 0.2 * (player_rating_avg - ratingsAvg pr opponent_players)
  let effectiveness :=
    (player_rating_avg * 0.4 + team_factor * 0.2 +
      opponent_factor * 0.1 + synergy_factor * 0.3) * matchup_factor
  let effectiveness := effectiveness + noise
  2 * effectiveness - 1

/-- The set of teams appearing in the data:
`set(data['home_team']) | set(data['away_team'])`. -/
def teamsOf (data : List Row) : Finset String :=
  (data.map Row.home_team).toFinset ∪ (data.map Row.away_team).toFinset

/-- The rating assigned to one team by `create_team_ratings`
(`data_processor.py` lines 97-108): seed `md5(team) % 1000`, then
`0.4 + 0.4 * random.random()`. -/
def create_team_rating (md5 : String → Nat) (rng : Nat → ℚ) (team : String) : ℚ :=
  0.4 + 0.4 * rng (md5 team % 1000)

/-- `create_team_ratings`: the finished dictionary, queried with `.get`. -/
def create_team_ratings (md5 : String → Nat) (rng : Nat → ℚ) (data : List Row) :
    String → Option ℚ :=
  fun team => if team ∈ teamsOf data then some (create_team_rating md5 rng team) else none

/-- Python truthiness of an optional integer (`None` and `0` are falsy). -/
def pyTruthyInt : Option Int → Bool
  | none => false
  | some v => v != 0

/-- `season if season else 2015` from `predict_lineup_effectiveness`. -/
def seasonOrDefault (season : Option Int) : Int :=
  if pyTruthyInt season then (season.getD 0) else 2015

/-- The feature vector built by `predict_lineup_effectiveness`
(`predictor.py` lines 35-46): season (with falsy default 2015),
starting minute, team codes, the four player codes, the candidate code,
then the opposing-lineup codes. -/
def buildFeatures (season : Option Int) (starting_min h a p0 p1 p2 p3 c : Int)
    (os : List Int) : List Int :=
  [seasonOrDefault season, starting_min, h, a, p0, p1, p2, p3, c] ++ os

/-- `predict_lineup_effectiveness` (`predictor.py` lines 16-58).
`encHome`, `encAway`, `encPlayer` are the fitted `LabelEncoder.transform`
maps, `none` standing for the unseen-label exception; the surrounding
`try/except` turns any such failure into `None`. `modelPredict` is the
regressor's prediction on a feature vector. -/
def predict_lineup_effectiveness (modelPredict : List Int → ℚ)
    (encHome encAway encPlayer : String → Option Int)
    (four_players : List Name) (home_team away_team : String)
    (opposing_lineup : List Name) (candidate : Name)
    (season : Option Int) (starting_min : Int) : Option ℚ := do
  let h ← encHome home_team
  let a ← encAway away_team
  let ps ← four_players.mapM encPlayer
  let c ← encPlayer candidate
  let os ← opposing_lineup.mapM encPlayer
  let p0 ← ps[0]?
  let p1 ← ps[1]?
  let p2 ← ps[2]?
  let p3 ← ps[3]?
  some (modelPredict (buildFeatures season starting_min h a p0 p1 p2 p3 c os))

/-- The `results` list of `find_optimal_fifth_player` before sorting:
candidates whose prediction succeeds, paired with their score, in
candidate order. -/
def candidateResults (modelPredict : List Int → ℚ)
    (encHome encAway encPlayer : String → Option Int)
    (four_players : List Name) (home_team away_team : String)
    (opposing_lineup : List Name) (candidates : List Name)
    (season : Option Int) (starting_min : Int) : List (Name × ℚ) :=
  candidates.filterMap fun cand =>
    (predict_lineup_effectiveness modelPredict encHome encAway encPlayer four_players
        home_team away_team opposing_lineup cand season starting_min).map
      fun e => (cand, e)

/-- `find_optimal_fifth_player` (`predictor.py` lines 60-77): score every
candidate, keep the successful ones in order, then a stable sort by score
descending (`list.sort(key=..., reverse=True)` keeps the input order of
equal keys, which `mergeSort` with `y.2 ≤ x.2` reproduces). -/
def find_optimal_fifth_player (modelPredict : List Int → ℚ)
    (encHome encAway encPlayer : String → Option Int)
    (four_players : List Name) (home_team away_team : String)
    (opposing_lineup : List Name) (candidates : List Name)
    (season : Option Int) (starting_min : Int) : List (Name × ℚ) :=
  (candidateResults modelPredict encHome encAway encPlayer four_players home_team
      away_team opposing_lineup candidates season starting_min).mergeSort
    fun x y => decide (y.2 ≤ x.2)

/-- The non-null home player cells of a row, in column order:
`[row[f'home_{i}'] ... if pd.notna(...)]`. -/
def homePlayers (r : Row) : List Name :=
  (List.finRange 5).filterMap r.home

/-- The non-null away player cells of a row, in column order. -/
def awayPlayers (r : Row) : List Name :=
  (List.finRange 5).filterMap r.away

/-- The key set of `create_player_ratings(data)`: every player name that
appears in some home or away cell of the data. -/
def knownPlayers (data : List Row) : Finset Name :=
  (data.flatMap fun r => homePlayers r ++ awayPlayers r).toFinset

/-- `other_players = set(player_ratings.keys()) - set(home_players)`
(`data_processor.py` line 210): the pool the alternative candidates are
drawn from, for one position of one row. -/
def altCandidatePool (known : Finset Name) (home_players : List Name) : Finset Name :=
  known \ home_players.toFinset

/-- The two-iteration sampling loop of `data_processor.py` lines 211-216:
draw, remove, draw again, stopping early when the pool runs dry.  `pick`
stands for `random.choice`. -/
def drawAlternatives (pick : Finset Name → Name) (pool : Finset Name) : List Name :=
  if pool = ∅ then []
  else
    let a1 := pick pool
    let pool1 := pool.erase a1
    if pool1 = ∅ then [a1] else [a1, pick pool1]

/-- The examples emitted for one held-out position `p` of one row
(`data_processor.py` lines 172-232): the real example followed by up to
two alternative examples sharing its context and its 0.8-scaled 4-player
base.  `noise` supplies the per-call Gaussian draws in source order:
call 0 scores the full lineup, call 1 the 4-player lineup, call `2 + j`
the `j`-th alternative lineup. -/
def positionExamples (pr tr : Name → Option ℚ) (syn : String → ℚ)
    (pick : Finset Name → Name) (noise : Nat → ℚ)
    (game_id home_team away_team : String) (season starting_min : Int)
    (home_players away_players : List Name) (known : Finset Name)
    (p : Nat) : List TrainExample :=
  let fifth_player := home_players.getD p ""
  let remaining_players := home_players.eraseIdx p
  let actual_effectiveness :=
    calculate_lineup_effectiveness pr tr syn home_players home_team away_team
      away_players (noise 0)
  let base_effectiveness :=
    calculate_lineup_effectiveness pr tr syn remaining_players home_team away_team
      away_players (noise 1) * 0.8
  let ex : TrainExample :=
    { game_id := game_id
      home_team := home_team
      away_team := away_team
      season := season
      starting_min := starting_min
      player_1 := remaining_players.getD 0 ""
      player_2 := remaining_players.getD 1 ""
      player_3 := remaining_players.getD 2 ""
      player_4 := remaining_players.getD 3 ""
      fifth_player := fifth_player
      effectiveness := actual_effectiveness - base_effectiveness
      away_players := away_players.take 5 }
  let alts := drawAlternatives pick (altCandidatePool known home_players)
  ex :: alts.enum.map fun ja =>
    { ex with
      fifth_player := ja.2
      effectiveness :=
        calculate_lineup_effectiveness pr tr syn (remaining_players ++ [ja.2])
          home_team away_team away_players (noise (2 + ja.1)) - base_effectiveness }

/-- The examples one row contributes: nothing unless it has exactly 5
resolved home players, else the five per-position batches
(`data_processor.py` lines 155-232).  `noise p` is the Gaussian stream of
position `p`. -/
def processRow (pr tr : Name → Option ℚ) (syn : String → ℚ)
    (pick : Finset Name → Name) (noise : Fin 5 → Nat → ℚ)
    (known : Finset Name) (r : Row) : List TrainExample :=
  let home_players := homePlayers r
  if home_players.length = 5 then
    (List.finRange 5).flatMap fun p =>
      positionExamples pr tr syn pick (noise p) r.game r.home_team r.away_team
        r.season r.starting_min home_players (awayPlayers r) known p.val
  else []

/-- `prepare_training_data` (`data_processor.py` lines 141-247).
`prVal` gives the numeric value `create_player_ratings` assigns to each
known player (the claims only depend on its key set); grouping by game
rearranges rows but every group carries consistent team columns, so the
emitted multiset of examples is the row-by-row one.  An empty example
list raises `ValueError`, embedded as `Except.error`. -/
def prepare_training_data (prVal : Name → ℚ) (tr : Name → Option ℚ)
    (syn : String → ℚ) (pick : Finset Name → Name)
    (noise : Nat → Fin 5 → Nat → ℚ) (data : List Row) :
    Except String (List TrainExample) :=
  let known := knownPlayers data
  let pr : Name → Option ℚ := fun p => if p ∈ known then some (prVal p) else none
  let examples := data.enum.flatMap fun ir =>
    processRow pr tr syn pick (noise ir.1) known ir.2
  if examples.isEmpty then
    Except.error "No training examples could be created. Check the data format."
  else
    Except.ok examples

/-- `LabelEncoder.fit`: the codebook is the sorted list of distinct
values. -/
def leClasses (values : List String) : List String :=
  values.dedup.mergeSort fun a b => decide (a ≤ b)

/-- `LabelEncoder.transform` on one value: its index in the codebook,
`none` for the unseen-label error. -/
def leTransform (classes : List String) (v : String) : Option Nat :=
  classes.findIdx? (· == v)

/-- `LabelEncoder.inverse_transform` on one code. -/
def leInverse (classes : List String) (k : Nat) : Option String :=
  classes[k]?

/-- The player-valued columns of the training dataframe (every column
whose name contains `'player'`): `player_1..player_4`, `fifth_player`,
`away_player_0..away_player_4`; a missing away cell is `none`. -/
def playerColumns : List (TrainExample → Option Name) :=
  [fun e => some e.player_1, fun e => some e.player_2, fun e => some e.player_3,
   fun e => some e.player_4, fun e => some e.fifth_player,
   fun e => e.away_players[0]?, fun e => e.away_players[1]?,
   fun e => e.away_players[2]?, fun e => e.away_players[3]?,
   fun e => e.away_players[4]?]

/-- `all_players`: the union of the non-null values of every player
column (`feature_engineering.py` lines 17-20). -/
def allPlayers (df : List TrainExample) : List Name :=
  playerColumns.flatMap fun c => df.filterMap c

/-- The single shared player codebook fit over `all_players`. -/
def playerClasses (df : List TrainExample) : List String :=
  leClasses (allPlayers df)

/-- The per-column team codebook (`encoders[col].fit_transform(df[col])`). -/
def teamClasses (df : List TrainExample) (col : TrainExample → String) : List String :=
  leClasses (df.map col)

/-- The code a player cell receives under the shared codebook. -/
def cellCode (df : List TrainExample) (c : TrainExample → Option Name)
    (e : TrainExample) : Option Nat :=
  (c e).bind (leTransform (playerClasses df))

/-- `get_player_candidates` (`feature_engineering.py` lines 57-70): the
distinct non-null `home_0..home_4` values of the rows whose `home_team`
matches (and whose `season` matches when one is given), sorted. -/
def get_player_candidates (df : List Row) (home_team : String)
    (season : Option Int) : List Name :=
  let team_games := df.filter fun r => r.home_team == home_team
  let team_games : List Row :=
    match season with
    | some s => team_games.filter fun r => r.season == s
    | none => team_games
  leClasses (team_games.flatMap homePlayers)

/-- `missing_position = lineup.index('?')` (`main.py` line 146). -/
def missingPosition (lineup : List String) : Nat :=
  lineup.findIdx (· == "?")

/-- `alpha_before` (`main.py` lines 149-153): the lineup entry before the
unknown slot, `none` when the slot is first. -/
def alphaBefore (lineup : List String) (p : Nat) : Option String :=
  if 0 < p then some (lineup.getD (p - 1) "") else none

/-- `alpha_after` (`main.py` lines 155-161): the lineup entry after the
unknown slot (scanning past further `'?'` entries), `none` when the slot
is last. -/
def alphaAfter (lineup : List String) (p : Nat) : Option String :=
  if p < 4 then
    let a := lineup.getD (p + 1) ""
    if a = "?" then
      match (List.range' (p + 1) (5 - (p + 1))).find? (fun j => lineup.getD j "" != "?") with
      | some j => some (lineup.getD j "")
      | none => some "?"
    else some a
  else none

/-- `four_players = [p for p in lineup if p != '?']` (`main.py` line 164). -/
def fourKnown (lineup : List String) : List String :=
  lineup.filter (· != "?")

/-- `if alpha_before: candidates = [p for p in candidates if p > alpha_before]`
(`main.py` lines 197-198); a `None` or empty-string bound is falsy and
skipped. -/
def applyLower (c : List String) (b : Option String) : List String :=
  match b with
  | some s => if s.isEmpty then c else c.filter fun q => decide (s < q)
  | none => c

/-- `if alpha_after: candidates = [p for p in candidates if p < alpha_after]`
(`main.py` lines 199-200). -/
def applyUpper (c : List String) (b : Option String) : List String :=
  match b with
  | some s => if s.isEmpty then c else c.filter fun q => decide (q < s)
  | none => c

/-- The candidate set the interactive predictor scores (`main.py` lines
146-200): the home roster minus the four known players, then the
alphabetical bounds taken from the neighbours of the unknown slot. -/
def interactiveCandidates (team_players lineup : List String) : List String :=
  let p := missingPosition lineup
  let four_players := fourKnown lineup
  let candidates := team_players.filter fun q => !four_players.contains q
  applyUpper (applyLower candidates (alphaBefore lineup p)) (alphaAfter lineup p)

/-- A concrete `random.choice` stand-in used by witnesses: the least
element of the pool. -/
def pickFirst (s : Finset Name) : Name :=
  if h : s.Nonempty then s.min' h else ""

end NBA

namespace NBA

/-- C2: stripping the Gaussian noise (`noise = 0`), the score equals
`2*w*m - 1` with `w` the 0.4/0.2/0.1/0.3-weighted sum of mean player
rating (default 0.5), home team rating (default 0.6), one minus the
opponent team rating (default 0.6), and the synergy factor, and `m` the
matchup factor (1 unless a non-empty opponent lineup is given); the
synergy factor lies in [0.8, 1.2] and the weights sum to 1.  The function
is total, so it never fails on identifiers absent from the rating maps. -/
theorem calc_effectiveness_spec (pr tr : Name → Option ℚ) (syn : String → ℚ)
    (players : List Name) (team opponent : String) (opponent_players : List Name)
    (hsyn : 0 ≤ syn (joinedSorted players) ∧ syn (joinedSorted players) < 1) :
    calculate_lineup_effectiveness pr tr syn players team opponent opponent_players 0 =
      2 * ((0.4 * ratingsAvg pr players + 0.2 * (tr team).getD 0.6 +
            0.1 * (1 - (tr opponent).getD 0.6) +
            0.3 * (0.8 + 0.4 * syn (joinedSorted players))) *
           (if opponent_players.isEmpty then 1
            else 1 + 0.2 * (ratingsAvg pr players - ratingsAvg pr opponent_players))) - 1 ∧
    0.8 ≤ 0.8 + 0.4 * syn (joinedSorted players) ∧
    0.8 + 0.4 * syn (joinedSorted players) ≤ 1.2 ∧
    (0.4 : ℚ) + 0.2 + 0.1 + 0.3 = 1 := by
  obtain ⟨h0, h1⟩ := hsyn
  refine ⟨?_, by linarith, by linarith, by norm_num⟩
  unfold calculate_lineup_effectiveness
  by_cases h : opponent_players.isEmpty <;> simp only [h, if_true, if_false] <;> ring

/-- Witness for C2 at a concrete input. -/
theorem calc_effectiveness_spec_witness :
    calculate_lineup_effectiveness (fun _ => none) (fun _ => none) (fun _ => 0)
        ["a", "b"] "T" "U" [] 0 =
      2 * ((0.4 * ratingsAvg (fun _ => none) ["a", "b"] + 0.2 * (0.6 : ℚ) +
            0.1 * (1 - (0.6 : ℚ)) + 0.3 * (0.8 + 0.4 * 0)) * 1) - 1 := by
  have h := calc_effectiveness_spec (fun _ => none) (fun _ => none) (fun _ => 0)
    ["a", "b"] "T" "U" [] (by norm_num)
  simpa using h.1

/-- C7: every team in the data gets a rating in [0.4, 0.8] that is a
function of `md5(name) % 1000` alone, hence identical for equal name
strings across runs and independent of the match data the team appears
in. -/
theorem create_team_ratings_spec (md5 : String → Nat) (rng : Nat → ℚ)
    (data data' : List Row) (team : String)
    (hr : ∀ n, 0 ≤ rng n ∧ rng n < 1) (h : team ∈ teamsOf data) :
    ∃ q, create_team_ratings md5 rng data team = some q ∧
      0.4 ≤ q ∧ q ≤ 0.8 ∧
      (∀ team2, md5 team2 % 1000 = md5 team % 1000 →
        create_team_rating md5 rng team2 = q) ∧
      (team ∈ teamsOf data' → create_team_ratings md5 rng data' team = some q) := by
  refine ⟨create_team_rating md5 rng team, ?_, ?_, ?_, ?_, ?_⟩
  · simp [create_team_ratings, h]
  · have := (hr (md5 team % 1000)).1
    unfold create_team_rating
    linarith
  · have := (hr (md5 team % 1000)).2
    unfold create_team_rating
    linarith
  · intro team2 h2
    unfold create_team_rating
    rw [h2]
  · intro h'
    simp [create_team_ratings, h']

/-- Witness for C7 at a concrete input. -/
theorem create_team_ratings_spec_witness :
    ∃ q, create_team_ratings (fun s => s.length) (fun _ => 1/2)
        [⟨"g", "LAL", "PHO", 2007, 0, fun _ => none, fun _ => none⟩] "LAL" = some q ∧
      0.4 ≤ q ∧ q ≤ 0.8 ∧
      (∀ team2, (fun s : String => s.length) team2 % 1000 = (fun s : String => s.length) "LAL" % 1000 →
        create_team_rating (fun s => s.length) (fun _ => 1/2) team2 = q) ∧
      ("LAL" ∈ teamsOf [] → create_team_ratings (fun s => s.length) (fun _ => 1/2) [] "LAL" = some q) := by
  refine create_team_ratings_spec (fun s => s.length) (fun _ => 1/2)
    [⟨"g", "LAL", "PHO", 2007, 0, fun _ => none, fun _ => none⟩] [] "LAL"
    (fun n => by norm_num) ?_
  decide

/-- C10: a falsy season (`None` or `0`) is replaced by 2015, so the
feature vector for season 0 is exactly the vector for season 2015, and
predictions agree; a non-zero season lands in slot 0 of the feature
vector unchanged. -/
theorem predict_season_default (modelPredict : List Int → ℚ)
    (encHome encAway encPlayer : String → Option Int)
    (four_players : List Name) (home_team away_team : String)
    (opposing_lineup : List Name) (candidate : Name) (starting_min : Int)
    (h a p0 p1 p2 p3 c : Int) (os : List Int) (v : Int) (hv : v ≠ 0) :
    predict_lineup_effectiveness modelPredict encHome encAway encPlayer four_players
        home_team away_team opposing_lineup candidate (some 0) starting_min =
      predict_lineup_effectiveness modelPredict encHome encAway encPlayer four_players
        home_team away_team opposing_lineup candidate (some 2015) starting_min ∧
    buildFeatures (some 0) starting_min h a p0 p1 p2 p3 c os =
      buildFeatures (some 2015) starting_min h a p0 p1 p2 p3 c os ∧
    buildFeatures none starting_min h a p0 p1 p2 p3 c os =
      buildFeatures (some 2015) starting_min h a p0 p1 p2 p3 c os ∧
    (buildFeatures (some v) starting_min h a p0 p1 p2 p3 c os)[0]? = some v := by
  have h0 : seasonOrDefault (some 0) = seasonOrDefault (some 2015) := by
    simp [seasonOrDefault, pyTruthyInt]
  have hn : seasonOrDefault none = seasonOrDefault (some 2015) := by
    simp [seasonOrDefault, pyTruthyInt]
  refine ⟨?_, ?_, ?_, ?_⟩
  · unfold predict_lineup_effectiveness
    simp only [buildFeatures, h0]
  · simp only [buildFeatures, h0]
  · simp only [buildFeatures, hn]
  · have : seasonOrDefault (some v) = v := by
      simp [seasonOrDefault, pyTruthyInt, hv]
    simp [buildFeatures, this]

/-- Witness for C10 at a concrete input. -/
theorem predict_season_default_witness :
    predict_lineup_effectiveness (fun f => f.sum) (fun _ => some 1) (fun _ => some 2)
        (fun _ => some 3) ["p", "q", "r", "s"] "H" "A" ["o"] "cand" (some 0) 7 =
      predict_lineup_effectiveness (fun f => f.sum) (fun _ => some 1) (fun _ => some 2)
        (fun _ => some 3) ["p", "q", "r", "s"] "H" "A" ["o"] "cand" (some 2015) 7 :=
  (predict_season_default (fun f => f.sum) (fun _ => some 1) (fun _ => some 2)
    (fun _ => some 3) ["p", "q", "r", "s"] "H" "A" ["o"] "cand" 7
    1 2 3 3 3 3 3 [] 9 (by decide)).1

/-- C5: the ranking is a permutation of the successful candidate scores,
sorted by score descending; the sort is stable (any correctly ordered
pair of the pre-sort list, ties included, survives in order); and a
candidate whose prediction fails never appears, while the rest are still
ranked. -/
theorem find_optimal_fifth_player_spec (modelPredict : List Int → ℚ)
    (encHome encAway encPlayer : String → Option Int)
    (four_players : List Name) (home_team away_team : String)
    (opposing_lineup : List Name) (candidates : List Name)
    (season : Option Int) (starting_min : Int) :
    (find_optimal_fifth_player modelPredict encHome encAway encPlayer four_players
        home_team away_team opposing_lineup candidates season starting_min).Perm
      (candidateResults modelPredict encHome encAway encPlayer four_players
        home_team away_team opposing_lineup candidates season starting_min) ∧
    (find_optimal_fifth_player modelPredict encHome encAway encPlayer four_players
        home_team away_team opposing_lineup candidates season starting_min).Pairwise
      (fun x y => y.2 ≤ x.2) ∧
    (∀ a b : Name × ℚ,
      List.Sublist [a, b] (candidateResults modelPredict encHome encAway encPlayer four_players
        home_team away_team opposing_lineup candidates season starting_min) →
      b.2 ≤ a.2 →
      List.Sublist [a, b] (find_optimal_fifth_player modelPredict encHome encAway encPlayer
        four_players home_team away_team opposing_lineup candidates season starting_min)) ∧
    (∀ cand ∈ candidates,
      predict_lineup_effectiveness modelPredict encHome encAway encPlayer four_players
        home_team away_team opposing_lineup cand season starting_min = none →
      ∀ q : ℚ, (cand, q) ∉ find_optimal_fifth_player modelPredict encHome encAway encPlayer
        four_players home_team away_team opposing_lineup candidates season starting_min) := by
  have htrans : ∀ a b c : Name × ℚ,
      (fun x y : Name × ℚ => decide (y.2 ≤ x.2)) a b →
      (fun x y : Name × ℚ => decide (y.2 ≤ x.2)) b c →
      (fun x y : Name × ℚ => decide (y.2 ≤ x.2)) a c := by
    intro a b c hab hbc
    simp only [decide_eq_true_eq] at *
    exact le_trans hbc hab
  have htotal : ∀ a b : Name × ℚ,
      ((fun x y : Name × ℚ => decide (y.2 ≤ x.2)) a b ||
       (fun x y : Name × ℚ => decide (y.2 ≤ x.2)) b a) := by
    intro a b
    simp only [Bool.or_eq_true, decide_eq_true_eq]
    exact le_total b.2 a.2
  refine ⟨List.mergeSort_perm _ _, ?_, ?_, ?_⟩
  · have h := List.sorted_mergeSort htrans htotal
      (candidateResults modelPredict encHome encAway encPlayer four_players
        home_team away_team opposing_lineup candidates season starting_min)
    exact h.imp fun {x y} hxy => by simpa using hxy
  · intro a b hsub hle
    exact List.pair_sublist_mergeSort htrans htotal (by simpa using hle) hsub
  · intro cand hcand hnone q hmem
    rw [find_optimal_fifth_player, List.mem_mergeSort, candidateResults,
      List.mem_filterMap] at hmem
    obtain ⟨c2, _, hc2⟩ := hmem
    rw [Option.map_eq_some'] at hc2
    obtain ⟨e, he, heq⟩ := hc2
    have hc : c2 = cand := congrArg Prod.fst heq
    rw [hc, hnone] at he
    exact Option.noConfusion he

theorem pickFirst_mem (s : Finset Name) (hs : s.Nonempty) : pickFirst s ∈ s := by
  unfold pickFirst
  rw [dif_pos hs]
  exact s.min'_mem hs

theorem drawAlternatives_spec (pick : Finset Name → Name) (pool : Finset Name)
    (hpick : ∀ s : Finset Name, s.Nonempty → pick s ∈ s) :
    (drawAlternatives pick pool).length = min 2 pool.card ∧
    (drawAlternatives pick pool).Nodup ∧
    ∀ a ∈ drawAlternatives pick pool, a ∈ pool := by
  unfold drawAlternatives
  by_cases h0 : pool = ∅
  · simp [h0]
  · have hne : pool.Nonempty := Finset.nonempty_iff_ne_empty.mpr h0
    have h1 : pick pool ∈ pool := hpick pool hne
    have hcard1 : 1 ≤ pool.card := Finset.card_pos.mpr hne
    have herase : (pool.erase (pick pool)).card = pool.card - 1 :=
      Finset.card_erase_of_mem h1
    by_cases h2 : pool.erase (pick pool) = ∅
    · have hc : pool.card = 1 := by
        rw [h2] at herase
        simp at herase
        omega
      simp only [if_neg h0, if_pos h2, hc]
      refine ⟨rfl, by simp, ?_⟩
      intro a ha
      simp at ha
      simpa [ha] using h1
    · have hne2 : (pool.erase (pick pool)).Nonempty := Finset.nonempty_iff_ne_empty.mpr h2
      have h3 : pick (pool.erase (pick pool)) ∈ pool.erase (pick pool) := hpick _ hne2
      have hc2 : 2 ≤ pool.card := by
        have := Finset.card_pos.mpr hne2
        omega
      simp only [if_neg h0, if_neg h2]
      refine ⟨by simp; omega, ?_, ?_⟩
      · simp only [List.nodup_cons, List.mem_singleton, List.nodup_nil, and_true,
          List.not_mem_nil, not_false_iff]
        intro heq
        exact (Finset.mem_erase.mp h3).1 heq.symm
      · intro a ha
        simp only [List.mem_cons, List.not_mem_nil, or_false] at ha
        rcases ha with ha | ha
        · simpa [ha] using h1
        · subst ha
          exact Finset.mem_of_mem_erase h3

theorem drawAlternatives_cases (pick : Finset Name → Name) (pool : Finset Name) :
    drawAlternatives pick pool = [] ∨
    (∃ a, drawAlternatives pick pool = [a]) ∨
    ∃ a b, drawAlternatives pick pool = [a, b] := by
  unfold drawAlternatives
  by_cases h0 : pool = ∅
  · simp [h0]
  · by_cases h2 : pool.erase (pick pool) = ∅
    · simp only [if_neg h0, if_pos h2]
      exact Or.inr (Or.inl ⟨_, rfl⟩)
    · simp only [if_neg h0, if_neg h2]
      exact Or.inr (Or.inr ⟨_, _, rfl⟩)

theorem enum_singleton (a : Name) : [a].enum = [(0, a)] := rfl

theorem enum_pair (a b : Name) : [a, b].enum = [(0, a), (1, b)] := rfl

theorem positionExamples_counts (pr tr : Name → Option ℚ) (syn : String → ℚ)
    (pick : Finset Name → Name) (noiseP : Nat → ℚ)
    (gid ht aw : String) (se sm : Int) (home away : List Name) (known : Finset Name)
    (p : Nat)
    (hpick : ∀ s : Finset Name, s.Nonempty → pick s ∈ s) (hp : p < home.length) :
    (positionExamples pr tr syn pick noiseP gid ht aw se sm home away known p).length =
      1 + (drawAlternatives pick (altCandidatePool known home)).length ∧
    (positionExamples pr tr syn pick noiseP gid ht aw se sm home away known p).countP
      (fun e => decide (e.fifth_player ∈ home)) = 1 ∧
    (positionExamples pr tr syn pick noiseP gid ht aw se sm home away known p).countP
      (fun e => decide (e.fifth_player ∉ home)) =
      (drawAlternatives pick (altCandidatePool known home)).length ∧
    ∀ e ∈ positionExamples pr tr syn pick noiseP gid ht aw se sm home away known p,
      e.fifth_player ∉ home → e.fifth_player ∈ altCandidatePool known home := by
  obtain ⟨hlen, hnd, hmem⟩ :=
    drawAlternatives_spec pick (altCandidatePool known home) hpick
  have hfifth : home[p]?.getD "" ∈ home := by
    rw [List.getElem?_eq_getElem hp]
    exact List.getElem_mem hp
  have halts : ∀ a ∈ drawAlternatives pick (altCandidatePool known home), a ∉ home := by
    intro a ha hmemh
    have h' := hmem a ha
    rw [altCandidatePool, Finset.mem_sdiff] at h'
    exact h'.2 (List.mem_toFinset.mpr hmemh)
  rcases drawAlternatives_cases pick (altCandidatePool known home) with hc | ⟨a, hc⟩ | ⟨a, b, hc⟩
  · refine ⟨?_, ?_, ?_, ?_⟩
    · simp [positionExamples, hc]
    · simp [positionExamples, hc, List.countP_cons, hfifth]
    · simp [positionExamples, hc, List.countP_cons, hfifth]
    · intro e he hnot
      simp [positionExamples, hc] at he
      rw [he] at hnot
      simp at hnot
      exact absurd hfifth hnot
  · have ha' : a ∉ home := halts a (by rw [hc]; exact List.mem_singleton_self a)
    have hamem : a ∈ altCandidatePool known home :=
      hmem a (by rw [hc]; exact List.mem_singleton_self a)
    refine ⟨?_, ?_, ?_, ?_⟩
    · simp [positionExamples, hc, enum_singleton]
    · simp [positionExamples, hc, enum_singleton, List.countP_cons, hfifth, ha']
    · simp [positionExamples, hc, enum_singleton, List.countP_cons, hfifth, ha']
    · intro e he hnot
      simp [positionExamples, hc, enum_singleton] at he
      rcases he with he | he
      · rw [he] at hnot
        simp at hnot
        exact absurd hfifth hnot
      · rw [he]
        simpa using hamem
  · have ha' : a ∉ home := halts a (by rw [hc]; simp)
    have hb' : b ∉ home := halts b (by rw [hc]; simp)
    have hamem : a ∈ altCandidatePool known home := hmem a (by rw [hc]; simp)
    have hbmem : b ∈ altCandidatePool known home := hmem b (by rw [hc]; simp)
    refine ⟨?_, ?_, ?_, ?_⟩
    · simp [positionExamples, hc, enum_pair]
    · simp [positionExamples, hc, enum_pair, List.countP_cons, hfifth, ha', hb']
    · simp [positionExamples, hc, enum_pair, List.countP_cons, hfifth, ha', hb']
    · intro e he hnot
      simp [positionExamples, hc, enum_pair] at he
      rcases he with he | he | he
      · rw [he] at hnot
        simp at hnot
        exact absurd hfifth hnot
      · rw [he]
        simpa using hamem
      · rw [he]
        simpa using hbmem

theorem length_flatMap_const {α β : Type} (l : List α) (f : α → List β) (k : Nat)
    (h : ∀ a ∈ l, (f a).length = k) : (l.flatMap f).length = l.length * k := by
  induction l with
  | nil => simp
  | cons a t ih =>
    rw [List.flatMap_cons, List.length_append, h a (List.mem_cons_self a t),
      ih fun x hx => h x (List.mem_cons_of_mem a hx), List.length_cons]
    ring

theorem countP_flatMap_const {α β : Type} (l : List α) (f : α → List β) (q : β → Bool)
    (k : Nat) (h : ∀ a ∈ l, (f a).countP q = k) : (l.flatMap f).countP q = l.length * k := by
  induction l with
  | nil => simp
  | cons a t ih =>
    rw [List.flatMap_cons, List.countP_append, h a (List.mem_cons_self a t),
      ih fun x hx => h x (List.mem_cons_of_mem a hx), List.length_cons]
    ring

theorem processRow_eq (pr tr : Name → Option ℚ) (syn : String → ℚ)
    (pick : Finset Name → Name) (noise : Fin 5 → Nat → ℚ) (known : Finset Name)
    (r : Row) (h5 : (homePlayers r).length = 5) :
    processRow pr tr syn pick noise known r =
      (List.finRange 5).flatMap fun p =>
        positionExamples pr tr syn pick (noise p) r.game r.home_team r.away_team
          r.season r.starting_min (homePlayers r) (awayPlayers r) known p.val := by
  simp [processRow, h5]

/-- C1 (amended): for a row with exactly 5 resolved home players, for any
admissible sampler, exactly 5 real examples are emitted (candidates from
the home lineup) together with `min 2 |pool|` alternatives per position
(so at most 10, fewer only if the pool is exhausted), where the pool is
the set of known players minus all FIVE home lineup players; every
alternative candidate comes from that pool, and one position's draw never
repeats a candidate. -/
theorem processRow_alternatives_spec (pr tr : Name → Option ℚ) (syn : String → ℚ)
    (pick : Finset Name → Name) (noise : Fin 5 → Nat → ℚ) (known : Finset Name)
    (r : Row) (hpick : ∀ s : Finset Name, s.Nonempty → pick s ∈ s)
    (h5 : (homePlayers r).length = 5) :
    (processRow pr tr syn pick noise known r).length =
      5 * (1 + min 2 (altCandidatePool known (homePlayers r)).card) ∧
    (processRow pr tr syn pick noise known r).countP
      (fun e => decide (e.fifth_player ∈ homePlayers r)) = 5 ∧
    (processRow pr tr syn pick noise known r).countP
      (fun e => decide (e.fifth_player ∉ homePlayers r)) =
      5 * min 2 (altCandidatePool known (homePlayers r)).card ∧
    (∀ e ∈ processRow pr tr syn pick noise known r,
      e.fifth_player ∉ homePlayers r →
      e.fifth_player ∈ altCandidatePool known (homePlayers r)) ∧
    (drawAlternatives pick (altCandidatePool known (homePlayers r))).Nodup ∧
    (drawAlternatives pick (altCandidatePool known (homePlayers r))).length =
      min 2 (altCandidatePool known (homePlayers r)).card := by
  obtain ⟨hdlen, hdnd, _⟩ :=
    drawAlternatives_spec pick (altCandidatePool known (homePlayers r)) hpick
  have hcounts := fun p : Fin 5 =>
    positionExamples_counts pr tr syn pick (noise p) r.game r.home_team r.away_team
      r.season r.starting_min (homePlayers r) (awayPlayers r) known p.val hpick
      (by rw [h5]; exact p.isLt)
  rw [processRow_eq pr tr syn pick noise known r h5]
  refine ⟨?_, ?_, ?_, ?_, hdnd, hdlen⟩
  · rw [length_flatMap_const _ _
      (1 + (drawAlternatives pick (altCandidatePool known (homePlayers r))).length)
      (fun p _ => (hcounts p).1), List.length_finRange, hdlen]
  · rw [countP_flatMap_const _ _ _ 1 (fun p _ => (hcounts p).2.1), List.length_finRange]
  · rw [countP_flatMap_const _ _ _
      (drawAlternatives pick (altCandidatePool known (homePlayers r))).length
      (fun p _ => (hcounts p).2.2.1), List.length_finRange, hdlen]
  · intro e he hnot
    rw [List.mem_flatMap] at he
    obtain ⟨p, _, hep⟩ := he
    exact (hcounts p).2.2.2 e hep hnot

/-- Witness for C1 (amended) at a concrete input. -/
theorem processRow_alternatives_spec_witness :
    (processRow (fun _ => none) (fun _ => none) (fun _ => 0) pickFirst (fun _ _ => 0)
        {"Pa", "Pb", "Pc", "Pd", "Pe", "Pf", "Pg"}
        ⟨"g", "H", "A", 2007, 0, (fun i => ["Pa", "Pb", "Pc", "Pd", "Pe"][i.val]?),
          fun _ => none⟩).length =
      5 * (1 + min 2 (altCandidatePool {"Pa", "Pb", "Pc", "Pd", "Pe", "Pf", "Pg"}
        (homePlayers ⟨"g", "H", "A", 2007, 0,
          (fun i => ["Pa", "Pb", "Pc", "Pd", "Pe"][i.val]?), fun _ => none⟩)).card) :=
  (processRow_alternatives_spec (fun _ => none) (fun _ => none) (fun _ => 0) pickFirst
    (fun _ _ => 0) {"Pa", "Pb", "Pc", "Pd", "Pe", "Pf", "Pg"}
    ⟨"g", "H", "A", 2007, 0, (fun i => ["Pa", "Pb", "Pc", "Pd", "Pe"][i.val]?),
      fun _ => none⟩ pickFirst_mem (by decide)).1

/-- C3: for a 5-player row, position `p`'s batch starts with the real
example, whose label is `score(5 players) - 0.8 * score(4 remaining)`,
and its `j`-th alternative's label is
`score(4 remaining + alternative) - 0.8 * score(4 remaining)` with the
identical base term (same call, `noise p 1`); all score calls share the
row's home team, away team and away lineup. -/
theorem processRow_labels_spec (pr tr : Name → Option ℚ) (syn : String → ℚ)
    (pick : Finset Name → Name) (noise : Fin 5 → Nat → ℚ) (known : Finset Name)
    (r : Row) (h5 : (homePlayers r).length = 5) (p : Fin 5) :
    processRow pr tr syn pick noise known r =
      ((List.finRange 5).flatMap fun q =>
        positionExamples pr tr syn pick (noise q) r.game r.home_team r.away_team
          r.season r.starting_min (homePlayers r) (awayPlayers r) known q.val) ∧
    ((positionExamples pr tr syn pick (noise p) r.game r.home_team r.away_team
        r.season r.starting_min (homePlayers r) (awayPlayers r) known p.val)[0]?).map
      TrainExample.fifth_player = some ((homePlayers r).getD p.val "") ∧
    ((positionExamples pr tr syn pick (noise p) r.game r.home_team r.away_team
        r.season r.starting_min (homePlayers r) (awayPlayers r) known p.val)[0]?).map
      TrainExample.effectiveness =
      some (calculate_lineup_effectiveness pr tr syn (homePlayers r) r.home_team
          r.away_team (awayPlayers r) (noise p 0) -
        calculate_lineup_effectiveness pr tr syn ((homePlayers r).eraseIdx p.val)
          r.home_team r.away_team (awayPlayers r) (noise p 1) * 0.8) ∧
    ∀ (j : Nat) (e : TrainExample),
      (positionExamples pr tr syn pick (noise p) r.game r.home_team r.away_team
        r.season r.starting_min (homePlayers r) (awayPlayers r) known p.val)[j + 1]? =
        some e →
      e.effectiveness =
        calculate_lineup_effectiveness pr tr syn
          ((homePlayers r).eraseIdx p.val ++ [e.fifth_player]) r.home_team r.away_team
          (awayPlayers r) (noise p (2 + j)) -
        calculate_lineup_effectiveness pr tr syn ((homePlayers r).eraseIdx p.val)
          r.home_team r.away_team (awayPlayers r) (noise p 1) * 0.8 := by
  refine ⟨processRow_eq pr tr syn pick noise known r h5, ?_, ?_, ?_⟩
  · simp [positionExamples]
  · simp [positionExamples]
  · intro j e he
    rcases drawAlternatives_cases pick
        (altCandidatePool known (homePlayers r)) with hc | ⟨a, hc⟩ | ⟨a, b, hc⟩
    · simp [positionExamples, hc] at he
    · cases j with
      | zero =>
        simp [positionExamples, hc, enum_singleton] at he
        rw [← he]
      | succ j' =>
        simp [positionExamples, hc, enum_singleton] at he
    · cases j with
      | zero =>
        simp [positionExamples, hc, enum_pair] at he
        rw [← he]
      | succ j' =>
        cases j' with
        | zero =>
          simp [positionExamples, hc, enum_pair] at he
          rw [← he]
        | succ j'' =>
          simp [positionExamples, hc, enum_pair] at he

/-- Witness for C3 at a concrete input. -/
theorem processRow_labels_spec_witness :
    ((positionExamples (fun _ => none) (fun _ => none) (fun _ => 0) pickFirst
        ((fun (_ : Fin 5) (_ : Nat) => (0 : ℚ)) 0) "g" "H" "A" 2007 0
        (homePlayers ⟨"g", "H", "A", 2007, 0,
          (fun i => ["Qa", "Qb", "Qc", "Qd", "Qe"][i.val]?), fun _ => none⟩)
        (awayPlayers ⟨"g", "H", "A", 2007, 0,
          (fun i => ["Qa", "Qb", "Qc", "Qd", "Qe"][i.val]?), fun _ => none⟩)
        {"Qa", "Qf"} (0 : Fin 5).val)[0]?).map TrainExample.fifth_player =
      some ((homePlayers ⟨"g", "H", "A", 2007, 0,
        (fun i => ["Qa", "Qb", "Qc", "Qd", "Qe"][i.val]?), fun _ => none⟩).getD
          (0 : Fin 5).val "") :=
  (processRow_labels_spec (fun _ => none) (fun _ => none) (fun _ => 0) pickFirst
    (fun _ _ => 0) {"Qa", "Qf"}
    ⟨"g", "H", "A", 2007, 0, (fun i => ["Qa", "Qb", "Qc", "Qd", "Qe"][i.val]?),
      fun _ => none⟩ (by decide) 0).2.1

/-- C1 counterexample: the claim says the pool is the known players minus
the 4 REMAINING players; the code takes the known players minus ALL FIVE
home players (line 210), so the held-out fifth player (here `"A"`) is
never drawable: a sampler that prefers `"A"` draws `["F"]` from the
code's pool, while the claim's pool would have yielded `["A", "F"]`. -/
theorem alt_pool_counterexample :
    drawAlternatives (fun s => if "A" ∈ s then "A" else pickFirst s)
        (altCandidatePool {"A", "B", "C", "D", "E", "F"} ["A", "B", "C", "D", "E"]) =
      ["F"] ∧
    drawAlternatives (fun s => if "A" ∈ s then "A" else pickFirst s)
        (({"A", "B", "C", "D", "E", "F"} : Finset Name) \
          (["B", "C", "D", "E"] : List Name).toFinset) = ["A", "F"] ∧
    altCandidatePool {"A", "B", "C", "D", "E", "F"} ["A", "B", "C", "D", "E"] ≠
      ({"A", "B", "C", "D", "E", "F"} : Finset Name) \
        (["B", "C", "D", "E"] : List Name).toFinset := by
  decide

/-- C8: a row without exactly 5 non-null home players contributes zero
examples and raises nothing (the embedding is total); the whole run
raises the descriptive `ValueError` exactly when the corpus yields zero
examples, and a successful run always returns a non-empty example
list. -/
theorem prepare_training_data_spec (prVal : Name → ℚ) (tr : Name → Option ℚ)
    (syn : String → ℚ) (pick : Finset Name → Name) (noise : Nat → Fin 5 → Nat → ℚ)
    (data : List Row) :
    (∀ (pr2 : Name → Option ℚ) (noiseR : Fin 5 → Nat → ℚ) (known2 : Finset Name)
      (r : Row), (homePlayers r).length ≠ 5 →
      processRow pr2 tr syn pick noiseR known2 r = []) ∧
    (prepare_training_data prVal tr syn pick noise data =
        Except.error "No training examples could be created. Check the data format." ↔
      (data.enum.flatMap fun ir =>
        processRow (fun q => if q ∈ knownPlayers data then some (prVal q) else none)
          tr syn pick (noise ir.1) (knownPlayers data) ir.2) = []) ∧
    ∀ exs, prepare_training_data prVal tr syn pick noise data = Except.ok exs →
      exs ≠ [] := by
  refine ⟨?_, ?_, ?_⟩
  · intro pr2 noiseR known2 r h
    simp [processRow, h]
  · unfold prepare_training_data
    by_cases hE : (data.enum.flatMap fun ir =>
        processRow (fun q => if q ∈ knownPlayers data then some (prVal q) else none)
          tr syn pick (noise ir.1) (knownPlayers data) ir.2) = []
    · simp [List.isEmpty_iff, hE]
    · simp [List.isEmpty_iff, hE]
  · intro exs hok
    unfold prepare_training_data at hok
    by_cases hE : (data.enum.flatMap fun ir =>
        processRow (fun q => if q ∈ knownPlayers data then some (prVal q) else none)
          tr syn pick (noise ir.1) (knownPlayers data) ir.2) = []
    · simp [List.isEmpty_iff, hE] at hok
    · simp [List.isEmpty_iff, hE] at hok
      rw [← hok]
      exact hE

/-- Witness for C8 at a concrete input: a 3-player row is skipped. -/
theorem prepare_training_data_spec_witness :
    processRow (fun _ => none) (fun _ => none) (fun _ => 0) pickFirst (fun _ _ => 0) ∅
      ⟨"g", "H", "A", 2007, 0, (fun i => ["Ra", "Rb", "Rc"][i.val]?),
        fun _ => none⟩ = [] :=
  (prepare_training_data_spec (fun _ => 0) (fun _ => none) (fun _ => 0) pickFirst
    (fun _ _ _ => 0) []).1 (fun _ => none) (fun _ _ => 0) ∅
    ⟨"g", "H", "A", 2007, 0, (fun i => ["Ra", "Rb", "Rc"][i.val]?), fun _ => none⟩
    (by decide)

theorem leTransform_roundtrip (classes : List String) (v : String) (h : v ∈ classes) :
    (leTransform classes v).bind (leInverse classes) = some v := by
  unfold leTransform leInverse
  cases hfi : classes.findIdx? (· == v) with
  | none =>
    rw [List.findIdx?_eq_none_iff] at hfi
    have := hfi v h
    simp at this
  | some i =>
    obtain ⟨hi, hp, -⟩ := List.findIdx?_eq_some_iff_getElem.mp hfi
    simp only [Option.some_bind]
    rw [List.getElem?_eq_getElem hi]
    have hv : classes[i] = v := by simpa using hp
    rw [hv]

theorem mem_leClasses {l : List String} {v : String} : v ∈ leClasses l ↔ v ∈ l := by
  unfold leClasses
  rw [List.mem_mergeSort, List.mem_dedup]

theorem string_le_trans : ∀ a b c : String,
    decide (a ≤ b) → decide (b ≤ c) → decide (a ≤ c) := by
  intro a b c hab hbc
  simp only [decide_eq_true_eq] at *
  exact le_trans hab hbc

theorem string_le_total : ∀ a b : String, (decide (a ≤ b) || decide (b ≤ a)) := by
  intro a b
  simp only [Bool.or_eq_true, decide_eq_true_eq]
  exact le_total a b

theorem leClasses_pairwise_lt (l : List String) : (leClasses l).Pairwise (· < ·) := by
  have hs := List.sorted_mergeSort string_le_trans string_le_total l.dedup
  have hnd : (leClasses l).Nodup :=
    ((List.mergeSort_perm l.dedup _).nodup_iff).mpr l.nodup_dedup
  have hle : (leClasses l).Pairwise (· ≤ ·) :=
    hs.imp fun h => of_decide_eq_true h
  exact (hle.and hnd).imp fun h => lt_of_le_of_ne h.1 h.2

theorem mem_homePlayers {r : Row} {v : Name} :
    v ∈ homePlayers r ↔ ∃ i : Fin 5, r.home i = some v := by
  unfold homePlayers
  rw [List.mem_filterMap]
  constructor
  · rintro ⟨i, _, h⟩
    exact ⟨i, h⟩
  · rintro ⟨i, h⟩
    exact ⟨i, List.mem_finRange i, h⟩

/-- C6: a player name present anywhere in a player-valued column, and a
team name present in a team column, encode to a code that decodes back to
the original name; and because every player column is encoded by the one
shared codebook, the same name receives the same code wherever it
appears. -/
theorem encode_categorical_roundtrip (df : List TrainExample) (v t u : String)
    (hv : v ∈ allPlayers df) (ht : t ∈ df.map TrainExample.home_team)
    (hu : u ∈ df.map TrainExample.away_team) :
    (leTransform (playerClasses df) v).bind (leInverse (playerClasses df)) = some v ∧
    (leTransform (teamClasses df TrainExample.home_team) t).bind
      (leInverse (teamClasses df TrainExample.home_team)) = some t ∧
    (leTransform (teamClasses df TrainExample.away_team) u).bind
      (leInverse (teamClasses df TrainExample.away_team)) = some u ∧
    ∀ c1 ∈ playerColumns, ∀ c2 ∈ playerColumns, ∀ e1 ∈ df, ∀ e2 ∈ df,
      c1 e1 = some v → c2 e2 = some v → cellCode df c1 e1 = cellCode df c2 e2 := by
  refine ⟨?_, ?_, ?_, ?_⟩
  · exact leTransform_roundtrip _ v (mem_leClasses.mpr hv)
  · exact leTransform_roundtrip _ t (mem_leClasses.mpr ht)
  · exact leTransform_roundtrip _ u (mem_leClasses.mpr hu)
  · intro c1 _ c2 _ e1 _ e2 _ h1 h2
    unfold cellCode
    rw [h1, h2]

/-- Witness for C6 at a concrete input. -/
theorem encode_categorical_roundtrip_witness :
    (leTransform (playerClasses [⟨"g", "H", "A", 2007, 0, "a", "b", "c", "d", "e",
        0, ["f"]⟩]) "a").bind
      (leInverse (playerClasses [⟨"g", "H", "A", 2007, 0, "a", "b", "c", "d", "e",
        0, ["f"]⟩])) = some "a" :=
  (encode_categorical_roundtrip [⟨"g", "H", "A", 2007, 0, "a", "b", "c", "d", "e",
      0, ["f"]⟩] "a" "H" "A" (by decide) (by decide) (by decide)).1

/-- C9: membership in `get_player_candidates` is exactly "appears in a
non-null home cell of a row whose home team (and season, when given)
matches"; the output is strictly sorted (hence distinct and
alphabetical); and blanking every away cell changes nothing, so away
appearances never contribute. -/
theorem get_player_candidates_spec (df : List Row) (team : String)
    (season : Option Int) (v : Name) :
    (v ∈ get_player_candidates df team season ↔
      ∃ r, r ∈ df ∧ r.home_team = team ∧ (∀ s, season = some s → r.season = s) ∧
        ∃ i : Fin 5, r.home i = some v) ∧
    (get_player_candidates df team season).Pairwise (· < ·) ∧
    get_player_candidates (df.map fun r => { r with away := fun _ => none }) team
      season = get_player_candidates df team season := by
  refine ⟨?_, leClasses_pairwise_lt _, ?_⟩
  · cases season with
    | none =>
      simp only [get_player_candidates, mem_leClasses, List.mem_flatMap,
        List.mem_filter, beq_iff_eq]
      constructor
      · rintro ⟨r, ⟨hrdf, hteam⟩, hv⟩
        exact ⟨r, hrdf, hteam, fun s hs => Option.noConfusion hs, mem_homePlayers.mp hv⟩
      · rintro ⟨r, hrdf, hteam, _, hi⟩
        exact ⟨r, ⟨hrdf, hteam⟩, mem_homePlayers.mpr hi⟩
    | some s =>
      simp only [get_player_candidates, mem_leClasses, List.mem_flatMap,
        List.mem_filter, beq_iff_eq]
      constructor
      · rintro ⟨r, ⟨⟨hrdf, hteam⟩, hseason⟩, hv⟩
        exact ⟨r, hrdf, hteam, fun s2 hs2 => by rw [← Option.some_inj.mp hs2]; exact hseason,
          mem_homePlayers.mp hv⟩
      · rintro ⟨r, hrdf, hteam, hseason, hi⟩
        exact ⟨r, ⟨⟨hrdf, hteam⟩, hseason s rfl⟩, mem_homePlayers.mpr hi⟩
  · cases season with
    | none =>
      simp only [get_player_candidates, List.filter_map, List.flatMap_map]
      rfl
    | some s =>
      simp only [get_player_candidates, List.filter_map, List.flatMap_map]
      rfl

/-- Witness for C9: no hypotheses beyond the universal statement; applied
at a concrete input. -/
theorem get_player_candidates_spec_witness :
    "x" ∈ get_player_candidates
        [⟨"g", "T", "U", 2008, 0, (fun i => ["x", "y", "z", "w", "q"][i.val]?),
          fun _ => none⟩] "T" (some 2008) :=
  ((get_player_candidates_spec
      [⟨"g", "T", "U", 2008, 0, (fun i => ["x", "y", "z", "w", "q"][i.val]?),
        fun _ => none⟩] "T" (some 2008) "x").1).mpr
    ⟨_, List.mem_singleton_self _, rfl, fun _ hs => by cases hs; rfl, ⟨0, rfl⟩⟩

theorem mem_applyLower {c : List String} {b : Option String} {q : String} :
    q ∈ applyLower c b ↔ q ∈ c ∧ ∀ s, b = some s → s ≠ "" → s < q := by
  cases b with
  | none => simp [applyLower]
  | some s =>
    simp only [applyLower]
    by_cases he : s.isEmpty
    · have hs : s = "" := (String.isEmpty_iff s).mp he
      rw [if_pos he]
      subst hs
      simp
    · have hs : s ≠ "" := fun h => he ((String.isEmpty_iff s).mpr h)
      rw [if_neg he]
      simp only [List.mem_filter, decide_eq_true_eq]
      constructor
      · rintro ⟨hc, hlt⟩
        refine ⟨hc, fun s2 hs2 _ => ?_⟩
        cases hs2
        exact hlt
      · rintro ⟨hc, hall⟩
        exact ⟨hc, hall s rfl hs⟩

theorem mem_applyUpper {c : List String} {b : Option String} {q : String} :
    q ∈ applyUpper c b ↔ q ∈ c ∧ ∀ s, b = some s → s ≠ "" → q < s := by
  cases b with
  | none => simp [applyUpper]
  | some s =>
    simp only [applyUpper]
    by_cases he : s.isEmpty
    · have hs : s = "" := (String.isEmpty_iff s).mp he
      rw [if_pos he]
      subst hs
      simp
    · have hs : s ≠ "" := fun h => he ((String.isEmpty_iff s).mpr h)
      rw [if_neg he]
      simp only [List.mem_filter, decide_eq_true_eq]
      constructor
      · rintro ⟨hc, hlt⟩
        refine ⟨hc, fun s2 hs2 _ => ?_⟩
        cases hs2
        exact hlt
      · rintro ⟨hc, hall⟩
        exact ⟨hc, hall s rfl hs⟩

/-- C4: for a 5-slot lineup whose only `'?'` sits at position `p` (all
other slots being real, non-empty names), the interactive candidate set
is exactly the roster minus the four known names, restricted to names
strictly above the slot `p - 1` name when `p > 0` and strictly below the
slot `p + 1` name when `p < 4`. -/
theorem interactive_candidates_spec (team_players lineup : List String) (p : Nat)
    (hlen : lineup.length = 5) (hp : p < 5)
    (hq : lineup.getD p "" = "?")
    (hothers : ∀ j, j < 5 → j ≠ p → lineup.getD j "" ≠ "?" ∧ lineup.getD j "" ≠ "") :
    ∀ q, q ∈ interactiveCandidates team_players lineup ↔
      q ∈ team_players ∧ q ∉ fourKnown lineup ∧
        (0 < p → lineup.getD (p - 1) "" < q) ∧
        (p < 4 → q < lineup.getD (p + 1) "") := by
  intro q
  have hplen : p < lineup.length := by rw [hlen]; exact hp
  have hmp : missingPosition lineup = p := by
    unfold missingPosition
    rw [List.findIdx_eq hplen]
    refine ⟨?_, ?_⟩
    · have hgp : lineup[p] = "?" := by
        rw [List.getD_eq_getElem?_getD, List.getElem?_eq_getElem hplen] at hq
        simpa using hq
      simp [hgp]
    · intro j hj
      have hj5 : j < lineup.length := by omega
      have hne := (hothers j (by omega) (by omega)).1
      rw [List.getD_eq_getElem?_getD, List.getElem?_eq_getElem hj5] at hne
      simp only [Option.getD_some] at hne
      simp [hne]
  have hb_ne : 0 < p → lineup.getD (p - 1) "" ≠ "" :=
    fun h0 => (hothers (p - 1) (by omega) (by omega)).2
  have ha_q : p < 4 → lineup.getD (p + 1) "" ≠ "?" :=
    fun h4 => (hothers (p + 1) (by omega) (by omega)).1
  have ha_ne : p < 4 → lineup.getD (p + 1) "" ≠ "" :=
    fun h4 => (hothers (p + 1) (by omega) (by omega)).2
  unfold interactiveCandidates
  rw [hmp, mem_applyUpper, mem_applyLower]
  have hbase : (q ∈ team_players.filter fun x => !(fourKnown lineup).contains x) ↔
      q ∈ team_players ∧ q ∉ fourKnown lineup := by
    simp [List.mem_filter]
  rw [hbase]
  constructor
  · rintro ⟨⟨⟨hqt, hqf⟩, hlow⟩, hup⟩
    refine ⟨hqt, hqf, ?_, ?_⟩
    · intro h0
      refine hlow (lineup.getD (p - 1) "") ?_ (hb_ne h0)
      unfold alphaBefore
      exact if_pos h0
    · intro h4
      refine hup (lineup.getD (p + 1) "") ?_ (ha_ne h4)
      unfold alphaAfter
      rw [if_pos h4]
      exact if_neg (ha_q h4)
  · rintro ⟨hqt, hqf, hlow, hup⟩
    refine ⟨⟨⟨hqt, hqf⟩, ?_⟩, ?_⟩
    · intro s hs hne
      by_cases h0 : 0 < p
      · unfold alphaBefore at hs
        rw [if_pos h0] at hs
        cases hs
        exact hlow h0
      · unfold alphaBefore at hs
        rw [if_neg h0] at hs
        exact Option.noConfusion hs
    · intro s hs hne
      by_cases h4 : p < 4
      · unfold alphaAfter at hs
        rw [if_pos h4] at hs
        rw [if_neg (ha_q h4)] at hs
        cases hs
        exact hup h4
      · unfold alphaAfter at hs
        rw [if_neg h4] at hs
        exact Option.noConfusion hs

/-- Witness for C4 at a concrete input. -/
theorem interactive_candidates_spec_witness :
    "James" ∈ interactiveCandidates ["Curry", "Harden", "James", "Jones", "Paul"]
      ["Harden", "?", "Paul", "Quinn", "Smith"] :=
  ((interactive_candidates_spec ["Curry", "Harden", "James", "Jones", "Paul"]
      ["Harden", "?", "Paul", "Quinn", "Smith"] 1 (by decide) (by decide) (by decide)
      (by decide)) "James").mpr
    ⟨by decide, by decide,
     fun _ => by
       rw [show (["Harden", "?", "Paul", "Quinn", "Smith"].getD (1 - 1) "") = "Harden"
         from rfl, String.lt_iff_toList_lt]
       decide,
     fun _ => by
       rw [show (["Harden", "?", "Paul", "Quinn", "Smith"].getD (1 + 1) "") = "Paul"
         from rfl, String.lt_iff_toList_lt]
       decide⟩

/-- Witness for C5 at a concrete input: the unknown candidate is absent
from the ranking. -/
theorem find_optimal_fifth_player_spec_witness :
    ("bad", (0 : ℚ)) ∉ find_optimal_fifth_player (fun f => (f.sum : ℚ))
      (fun _ => some 1) (fun _ => some 2)
      (fun s => if s = "bad" then none else some 3)
      ["p", "q", "r", "s"] "H" "A" ["o"] ["good", "bad"] none 0 :=
  (find_optimal_fifth_player_spec (fun f => (f.sum : ℚ))
      (fun _ => some 1) (fun _ => some 2)
      (fun s => if s = "bad" then none else some 3)
      ["p", "q", "r", "s"] "H" "A" ["o"] ["good", "bad"] none 0).2.2.2
    "bad" (by simp) rfl 0

end NBA
